import Mathlib

/-!
Shallow embedding of the storage core of the bustub2023 repository:
the persistent trie (src/primer/trie.cpp), the LRU-K replacer
(src/buffer/lru_k_replacer.cpp) and the buffer pool manager
(src/buffer/buffer_pool_manager.cpp).  Exceptions thrown by the C++
code (and undefined behaviour such as dereferencing a null root or
reading an uninitialized frame id) are modelled with Except; disk
scheduler requests are modelled as always succeeding, since only the
success path is specified.
-/

set_option autoImplicit false

namespace Bustub

/-! ## Association-list maps

std::map / std::unordered_map with unique keys are embedded as
association lists.  alookup finds the first binding, aset replaces the
binding in place or appends a fresh one, aerase removes the binding,
emplaceKV inserts only when the key is absent (the semantics of
unordered_map::emplace used by the buffer pool). -/

def alookup {κ α : Type} [DecidableEq κ] : List (κ × α) → κ → Option α
  | [], _ => none
  | (k, a) :: rest, key => if k = key then some a else alookup rest key

def aset {κ α : Type} [DecidableEq κ] : List (κ × α) → κ → α → List (κ × α)
  | [], key, v => [(key, v)]
  | (k, a) :: rest, key, v =>
      if k = key then (key, v) :: rest else (k, a) :: aset rest key v

def aerase {κ α : Type} [DecidableEq κ] : List (κ × α) → κ → List (κ × α)
  | [], _ => []
  | (k, a) :: rest, key => if k = key then rest else (k, a) :: aerase rest key

def emplaceKV {κ α : Type} [DecidableEq κ] (l : List (κ × α)) (key : κ) (v : α) :
    List (κ × α) :=
  match alookup l key with
  | some _ => l
  | none => l ++ [(key, v)]

theorem alookup_aset_self {κ α : Type} [DecidableEq κ]
    (l : List (κ × α)) (key : κ) (v : α) :
    alookup (aset l key v) key = some v := by
  induction l with
  | nil => simp [aset, alookup]
  | cons p rest ih =>
      obtain ⟨k, a⟩ := p
      by_cases h : k = key
      · simp [aset, alookup, h]
      · simp [aset, alookup, h, ih]

theorem alookup_aset_ne {κ α : Type} [DecidableEq κ]
    (l : List (κ × α)) (key key' : κ) (v : α) (h : key' ≠ key) :
    alookup (aset l key v) key' = alookup l key' := by
  induction l with
  | nil => simp [aset, alookup, Ne.symm h]
  | cons p rest ih =>
      obtain ⟨k, a⟩ := p
      by_cases hk : k = key
      · subst hk
        simp [aset, alookup, Ne.symm h]
      · simp [aset, alookup, hk, ih]

/-! ## Persistent trie (src/primer/trie.cpp)

TrieNode holds a children map (std map from char to shared pointers)
and an optional value: a TrieNodeWithValue of the single value type V
is a node whose value field is some.  The C++ is_value_node flag is
value.isSome; Clone preserves both fields, so cloning is the identity
in the pure embedding. -/

inductive TrieNode (V : Type) where
  | mk (children : List (Char × TrieNode V)) (value : Option V)

def TrieNode.children {V : Type} : TrieNode V → List (Char × TrieNode V)
  | .mk c _ => c

def TrieNode.value {V : Type} : TrieNode V → Option V
  | .mk _ v => v

@[simp] theorem TrieNode.children_mk {V : Type}
    (c : List (Char × TrieNode V)) (v : Option V) :
    (TrieNode.mk c v).children = c := rfl

@[simp] theorem TrieNode.value_mk {V : Type}
    (c : List (Char × TrieNode V)) (v : Option V) :
    (TrieNode.mk c v).value = v := rfl

def TrieNode.setChild {V : Type} (n : TrieNode V) (c : Char) (m : TrieNode V) :
    TrieNode V :=
  .mk (aset n.children c m) n.value

/-- A trie snapshot: an optional shared root (empty trie has no root). -/
structure Trie (V : Type) where
  root : Option (TrieNode V)

/-- The label used for the empty key: a child labelled with the null byte. -/
def nulChar : Char := Char.ofNat 0

/-- Result of Trie::Get.  error models the std::out_of_range exception
thrown by children_.at on a missing key. -/
inductive GetResult (V : Type) where
  | found (v : V)
  | notFound
  | error
deriving DecidableEq

/-- The traversal loop of Trie::Get (and the presence-check loop of
Trie::Remove): follow one child per key byte, none when a label is
absent. -/
def walkNode {V : Type} : TrieNode V → List Char → Option (TrieNode V)
  | n, [] => some n
  | n, c :: cs =>
      match alookup n.children c with
      | some m => walkNode m cs
      | none => none

/-- Trie::Get.  For the empty key the C++ reassigns cur to
children_.at of the null char, which throws when that child is absent
(modelled as .error).  The dynamic cast succeeds exactly on value
nodes in the single-value-type embedding. -/
def trieGet {V : Type} (t : Trie V) (key : List Char) : GetResult V :=
  match t.root with
  | none => .notFound
  | some root =>
      match walkNode root key with
      | none => .notFound
      | some cur =>
          match key with
          | [] =>
              match alookup cur.children nulChar with
              | none => .error
              | some cnode =>
                  match cnode.value with
                  | some v => .found v
                  | none => .notFound
          | _ :: _ =>
              match cur.value with
              | some v => .found v
              | none => .notFound

/-- The C++ guard cur != nullptr && cur->children_.count(ch) != 0 used
inside Trie::Put, where cur may be null (no root) or stale. -/
def curChild {V : Type} (cur : Option (TrieNode V)) (c : Char) :
    Option (TrieNode V) :=
  match cur with
  | some n => alookup n.children c
  | none => none

/-- The body of the loop of Trie::Put over the key bytes.  cur mirrors
the C++ read cursor into the old trie: note that in the branch where
the child is absent the C++ does NOT advance cur, so the recursive
call keeps the stale cursor.  acc is the node being built (new_cur);
the loop returns the fully built node. -/
def putLoop {V : Type} (cur : Option (TrieNode V)) (acc : TrieNode V) :
    List Char → V → TrieNode V
  | [], _ => acc
  | [c], v =>
      match curChild cur c with
      | some child => acc.setChild c (.mk child.children (some v))
      | none => acc.setChild c (.mk [] (some v))
  | c :: cs, v =>
      match curChild cur c with
      | some child => acc.setChild c (putLoop (some child) child cs v)
      | none => acc.setChild c (putLoop cur (.mk [] none) cs v)

/-- The root clone at the start of Put and Remove: a copy of the root
when there is one (cloning is the identity in the pure embedding),
otherwise a fresh empty structural node. -/
def rootOrEmpty {V : Type} (t : Trie V) : TrieNode V :=
  match t.root with
  | some r => r
  | none => TrieNode.mk [] none

/-- Trie::Put.  Clone the root (or make a fresh empty node); for the
empty key install a value node as the null-char child of the root;
otherwise run the loop over the key bytes. -/
def triePut {V : Type} (t : Trie V) (key : List Char) (v : V) : Trie V :=
  let newRoot := rootOrEmpty t
  match key with
  | [] => ⟨some (newRoot.setChild nulChar (.mk [] (some v)))⟩
  | _ :: _ => ⟨some (putLoop t.root newRoot key v)⟩

/-- The clone-and-prune pass of Trie::Remove below the root, for a key
whose terminal was checked to be a value node.  Returns none when the
node is erased from its parent (terminal value node without children,
or a structural node emptied by the erasure below), otherwise the
rebuilt node.  The branch for an absent child is unreachable because
the presence loop of Remove already walked the whole key. -/
def removeAux {V : Type} (cur : TrieNode V) : List Char → Option (TrieNode V)
  | [] =>
      if cur.children.isEmpty then none
      else some (.mk cur.children none)
  | c :: cs =>
      match alookup cur.children c with
      | none => some cur
      | some child =>
          match removeAux child cs with
          | some n => some (.mk (aset cur.children c n) cur.value)
          | none =>
              let ch := aerase cur.children c
              if ch.isEmpty && cur.value.isNone then none
              else some (.mk ch cur.value)

/-- Trie::Remove.  A null root is dereferenced by the C++ for every
key (cur->children_ in the presence loop for a non-empty key,
cur->is_value_node_ for the empty key), modelled as .error.  For the
empty key the null-char child is erased from the cloned root before
any check.  The early returns (absent key, non-value terminal) skip
the final empty-root collapse. -/
def trieRemove {V : Type} (t : Trie V) (key : List Char) :
    Except Unit (Trie V) :=
  match t.root with
  | none => .error ()
  | some root =>
      let newRoot := if key.isEmpty
        then TrieNode.mk (aerase root.children nulChar) root.value
        else root
      match walkNode root key with
      | none => .ok ⟨some newRoot⟩
      | some cur =>
          if cur.value.isNone then .ok ⟨some newRoot⟩
          else
            match key with
            | [] =>
                if newRoot.children.isEmpty then .ok ⟨none⟩
                else .ok ⟨some newRoot⟩
            | c :: cs =>
                match alookup root.children c with
                | none => .ok ⟨some newRoot⟩
                | some child =>
                    let newRoot2 := match removeAux child cs with
                      | none => TrieNode.mk (aerase root.children c) root.value
                      | some n => TrieNode.mk (aset root.children c n) root.value
                    if newRoot2.children.isEmpty then .ok ⟨none⟩
                    else .ok ⟨some newRoot2⟩

/-! ## LRU-K replacer (src/buffer/lru_k_replacer.cpp)

The intrusive doubly-linked lists threaded through the three sentinels
are embedded as two Lean lists of frame ids, oldest element first —
exactly the order in which Evict scans them (from the backptr of the
scanning sentinel toward the terminating sentinel).  MoveToEnd of the
C++ (splice directly in front of the end sentinel) is remove-from-both-
lists followed by append, which is faithful because every insertion
first unlinks the node, so a frame occurs at most once across the two
lists.  LRUKNode itself lives in the repository header which is not
under src; its fields and the behaviour of its RecordAccess are
modelled from the spec. -/

/-- Modelled from the spec: LRUKNode (declared in the lru_k_replacer
header, which is not under src).  Per sections 3.3 and 4.4 of the spec
it stores the frame id, the bound k, the bounded access history kept
oldest first, and the evictable flag, initially false with an empty
history. -/
structure LRUKNode where
  fid : Nat
  k : Nat
  history : List Nat
  is_evictable : Bool
deriving DecidableEq

/-- Modelled from the spec: LRUKNode::RecordAccess (header not under
src).  Append the new timestamp; if the history then exceeds k, drop
the oldest entry. -/
def nodeRecordAccess (n : LRUKNode) (ts : Nat) : LRUKNode :=
  let h := n.history ++ [ts]
  { n with history := if h.length > n.k then h.tail else h }

structure LRUKReplacer where
  replacer_size : Nat
  k : Nat
  node_store : List (Nat × LRUKNode)
  history_list : List Nat
  buffer_list : List Nat
  curr_size : Nat
  current_timestamp : Nat
deriving DecidableEq

/-- LRUKReplacer constructor: pre-create a node for every frame id;
both lists start empty (no node is linked until its first access). -/
def newLRUKReplacer (num_frames k : Nat) : LRUKReplacer where
  replacer_size := num_frames
  k := k
  node_store := (List.range num_frames).map fun i => (i, ⟨i, k, [], false⟩)
  history_list := []
  buffer_list := []
  curr_size := 0
  current_timestamp := 0

def removeFrame (l : List Nat) (f : Nat) : List Nat :=
  l.filter fun x => x ≠ f

/-- LRUKReplacer::RecordAccess.  The timestamp is incremented before
the bounds check; an out-of-range frame id raises an execution
exception (.error).  A frame absent from node_store (possible only
after Remove) gets a freshly created node, records the single access
and is spliced at the recent end of the history list; otherwise the
node records the access and is spliced at the recent end of the list
matching its post-update history size (history when below k, cache
otherwise). -/
def recordAccess (r : LRUKReplacer) (fid : Nat) : Except Unit LRUKReplacer :=
  let ts := r.current_timestamp + 1
  if r.replacer_size ≤ fid then .error ()
  else
    match alookup r.node_store fid with
    | none =>
        .ok { r with
          current_timestamp := ts
          node_store := aset r.node_store fid ⟨fid, r.k, [ts], false⟩
          history_list := removeFrame r.history_list fid ++ [fid]
          buffer_list := removeFrame r.buffer_list fid }
    | some node =>
        let node := nodeRecordAccess node ts
        if node.history.length < r.k then
          .ok { r with
            current_timestamp := ts
            node_store := aset r.node_store fid node
            history_list := removeFrame r.history_list fid ++ [fid]
            buffer_list := removeFrame r.buffer_list fid }
        else
          .ok { r with
            current_timestamp := ts
            node_store := aset r.node_store fid node
            history_list := removeFrame r.history_list fid
            buffer_list := removeFrame r.buffer_list fid ++ [fid] }

/-- LRUKReplacer::SetEvictable: no-op on an untracked frame; toggle
the flag and adjust curr_size only when the state actually changes. -/
def setEvictable (r : LRUKReplacer) (fid : Nat) (b : Bool) : LRUKReplacer :=
  match alookup r.node_store fid with
  | none => r
  | some node =>
      if node.is_evictable ≠ b then
        { r with
          node_store := aset r.node_store fid { node with is_evictable := b }
          curr_size := if b then r.curr_size + 1 else r.curr_size - 1 }
      else r

/-- The scan of one list inside LRUKReplacer::Evict: first frame,
oldest end first, whose node is evictable. -/
def findEvictable (store : List (Nat × LRUKNode)) : List Nat → Option Nat
  | [] => none
  | f :: rest =>
      match alookup store f with
      | some n => if n.is_evictable then some f else findEvictable store rest
      | none => findEvictable store rest

/-- The success path of Evict on a chosen frame: unlink it, mark it
non-evictable, clear its history, decrement curr_size. -/
def evictFrame (r : LRUKReplacer) (fid : Nat) : LRUKReplacer :=
  { r with
    history_list := removeFrame r.history_list fid
    buffer_list := removeFrame r.buffer_list fid
    node_store := match alookup r.node_store fid with
      | some node => aset r.node_store fid
          { node with is_evictable := false, history := [] }
      | none => r.node_store
    curr_size := r.curr_size - 1 }

/-- LRUKReplacer::Evict: nothing when curr_size is zero; otherwise
scan the history list oldest first, then the cache list oldest first,
and evict the first evictable node found. -/
def evict (r : LRUKReplacer) : Option Nat × LRUKReplacer :=
  if r.curr_size = 0 then (none, r)
  else
    match findEvictable r.node_store r.history_list with
    | some fid => (some fid, evictFrame r fid)
    | none =>
        match findEvictable r.node_store r.buffer_list with
        | some fid => (some fid, evictFrame r fid)
        | none => (none, r)

/-- LRUKReplacer::Remove: no-op when untracked; an execution exception
when the node is not evictable; otherwise unlink, delete the node from
node_store and decrement curr_size. -/
def lrukRemove (r : LRUKReplacer) (fid : Nat) : Except Unit LRUKReplacer :=
  match alookup r.node_store fid with
  | none => .ok r
  | some node =>
      if node.is_evictable then
        .ok { r with
          history_list := removeFrame r.history_list fid
          buffer_list := removeFrame r.buffer_list fid
          node_store := aerase r.node_store fid
          curr_size := r.curr_size - 1 }
      else .error ()

def lrukSize (r : LRUKReplacer) : Nat := r.curr_size

/-! ## Buffer pool manager (src/buffer/buffer_pool_manager.cpp)

The page array is a list of Page records indexed by frame id; the page
data bytes live on the disk side and are not modelled (ResetMemory and
the scheduled reads and writes touch only them, and all disk requests
are modelled as succeeding).  page_table is an unordered_map from page
id to frame id, free_list a vector used as a stack at its back. -/

/-- Modelled from the spec: the Page record (declared in headers not
under src).  Metadata fields page_id, pin_count and is_dirty, in their
documented initial state: no page (id -1), pin count 0, clean. -/
structure Page where
  page_id : Int
  pin_count : Int
  is_dirty : Bool
deriving DecidableEq

def initPage : Page := ⟨-1, 0, false⟩

/-- Read of pages_[f]; out-of-range access never happens because every
frame id handled by the pool is below pool_size. -/
def getPage : List Page → Nat → Page
  | [], _ => initPage
  | p :: _, 0 => p
  | _ :: rest, n + 1 => getPage rest n

/-- Write of pages_[f]. -/
def setPage : List Page → Nat → Page → List Page
  | [], _, _ => []
  | _ :: rest, 0, q => q :: rest
  | p :: rest, n + 1, q => p :: setPage rest n q

structure BufferPoolManager where
  pool_size : Nat
  pages : List Page
  page_table : List (Int × Nat)
  free_list : List Nat
  replacer : LRUKReplacer
  next_page_id : Int
deriving DecidableEq

/-- BufferPoolManager constructor: all frames initially free (pushed
back in increasing order, so the back of the free list is the highest
frame id). -/
def newBufferPoolManager (pool_size k : Nat) : BufferPoolManager where
  pool_size := pool_size
  pages := List.replicate pool_size initPage
  page_table := []
  free_list := List.range pool_size
  replacer := newLRUKReplacer pool_size k
  next_page_id := 0

/-- BufferPoolManager::NewPage.  Take the victim from the back of the
free list if any; otherwise, when the replacer reports a positive
size, evict.  Only when the evicted victim page is dirty does the code
write it back, reset its memory AND erase its old page id from
page_table — a clean victim keeps its stale page_table entry.  The
pin count of the new page is never touched.  An Evict that finds no
frame leaves the C++ frame_id uninitialized (undefined behaviour),
modelled as .error. -/
def newPage (s : BufferPoolManager) : Except Unit (Option Int × BufferPoolManager) :=
  match s.free_list.getLast? with
  | some frame =>
      match recordAccess s.replacer frame with
      | .error e => .error e
      | .ok repl1 =>
          let repl := setEvictable repl1 frame false
          let pid := s.next_page_id
          .ok (some pid,
            { s with
              free_list := s.free_list.dropLast
              replacer := repl
              pages := setPage s.pages frame { getPage s.pages frame with page_id := pid }
              page_table := emplaceKV s.page_table pid frame
              next_page_id := pid + 1 })
  | none =>
      if 0 < lrukSize s.replacer then
        match evict s.replacer with
        | (none, _) => .error ()
        | (some frame, repl0) =>
            let pg := getPage s.pages frame
            let pt := if pg.is_dirty then aerase s.page_table pg.page_id
                      else s.page_table
            match recordAccess repl0 frame with
            | .error e => .error e
            | .ok repl1 =>
                let repl := setEvictable repl1 frame false
                let pid := s.next_page_id
                .ok (some pid,
                  { s with
                    replacer := repl
                    pages := setPage s.pages frame { pg with page_id := pid }
                    page_table := emplaceKV pt pid frame
                    next_page_id := pid + 1 })
      else .ok (none, s)

/-- BufferPoolManager::FetchPage, returning the frame id the Page
pointer points at.  On a hit the function returns the frame with no
state change at all.  On a miss it takes a free frame or evicts; in
the eviction branch the old page id is erased unconditionally (unlike
NewPage).  The scheduled disk read and the optional dirty write-back
touch only page data and are modelled as succeeding. -/
def fetchPage (s : BufferPoolManager) (pid : Int) :
    Except Unit (Option Nat × BufferPoolManager) :=
  match alookup s.page_table pid with
  | some frame => .ok (some frame, s)
  | none =>
      match s.free_list.getLast? with
      | some frame =>
          match recordAccess s.replacer frame with
          | .error e => .error e
          | .ok repl1 =>
              let repl := setEvictable repl1 frame false
              .ok (some frame,
                { s with
                  free_list := s.free_list.dropLast
                  replacer := repl
                  pages := setPage s.pages frame { getPage s.pages frame with page_id := pid }
                  page_table := emplaceKV s.page_table pid frame })
      | none =>
          if 0 < lrukSize s.replacer then
            match evict s.replacer with
            | (none, _) => .error ()
            | (some frame, repl0) =>
                let pg := getPage s.pages frame
                let pt := aerase s.page_table pg.page_id
                match recordAccess repl0 frame with
                | .error e => .error e
                | .ok repl1 =>
                    let repl := setEvictable repl1 frame false
                    .ok (some frame,
                      { s with
                        replacer := repl
                        pages := setPage s.pages frame { pg with page_id := pid }
                        page_table := emplaceKV pt pid frame })
          else .ok (none, s)

/-- BufferPoolManager::UnpinPage: false for a non-resident page id;
otherwise the dirty flag is a sticky OR, the pin count is decremented
only when positive, and when the pin count ends at zero the frame is
marked evictable. -/
def unpinPage (s : BufferPoolManager) (pid : Int) (is_dirty : Bool) :
    Bool × BufferPoolManager :=
  match alookup s.page_table pid with
  | none => (false, s)
  | some frame =>
      let pg0 := getPage s.pages frame
      let pg1 := if is_dirty && !pg0.is_dirty then { pg0 with is_dirty := true } else pg0
      let pg2 := if 0 < pg1.pin_count then { pg1 with pin_count := pg1.pin_count - 1 } else pg1
      let repl := if pg2.pin_count = 0 then setEvictable s.replacer frame true
                  else s.replacer
      (true, { s with pages := setPage s.pages frame pg2, replacer := repl })

/-- BufferPoolManager::DeletePage: false when non-resident or pinned;
otherwise erase the page_table entry, remove the frame from the
replacer (which raises an execution exception when the frame is
tracked but not evictable), push the frame on the free list and reset
the page memory (data only, not modelled). -/
def deletePage (s : BufferPoolManager) (pid : Int) :
    Except Unit (Bool × BufferPoolManager) :=
  match alookup s.page_table pid with
  | none => .ok (false, s)
  | some frame =>
      if 0 < (getPage s.pages frame).pin_count then .ok (false, s)
      else
        match lrukRemove s.replacer frame with
        | .error e => .error e
        | .ok repl =>
            .ok (true,
              { s with
                page_table := aerase s.page_table pid
                replacer := repl
                free_list := s.free_list ++ [frame] })

/-! ## Concrete scenarios used by the claim theorems -/

/-- A pool of one frame with k = 2. -/
def bpm0 : BufferPoolManager := newBufferPoolManager 1 2

/-- The pool after its first NewPage (page 0 in frame 0). -/
def sAfterNew : BufferPoolManager :=
  match newPage bpm0 with
  | .ok (_, s) => s
  | .error _ => bpm0

/-- The pool after additionally unpinning page 0 as clean. -/
def sAfterUnpin : BufferPoolManager := (unpinPage sAfterNew 0 false).2

/-- Replacer scenario for the eviction-order claim: two frames, k = 2,
access sequence 0, 1, 1, 0, then both frames marked evictable. -/
def rC4 : LRUKReplacer :=
  let r0 := newLRUKReplacer 2 2
  let r1 := ((recordAccess r0 0).toOption).getD r0
  let r2 := ((recordAccess r1 1).toOption).getD r1
  let r3 := ((recordAccess r2 1).toOption).getD r2
  let r4 := ((recordAccess r3 0).toOption).getD r3
  setEvictable (setEvictable r4 0 true) 1 true

/-- Replacer scenario for the re-creation claim: two frames, k = 2;
frame 0 accessed once, marked evictable and removed, so that it is no
longer tracked. -/
def rRemoved : LRUKReplacer :=
  let r0 := newLRUKReplacer 2 2
  let r1 := ((recordAccess r0 0).toOption).getD r0
  let r2 := setEvictable r1 0 true
  ((lrukRemove r2 0).toOption).getD r2

end Bustub

namespace Bustub

/-! ## Trie scenario values -/

def chA : Char := Char.ofNat 97

def chB : Char := Char.ofNat 98

def chX : Char := Char.ofNat 120

/-- The snapshot holding only the binding of the key "ab" to 0. -/
def trieS : Trie Nat := triePut (Trie.mk none) [chA, chB] 0

/-! ## Supporting lemmas -/

/-- After the Put loop runs over a non-empty key, walking the built
node along that same key reaches a node whose value is the put value,
for every cursor and every accumulator. -/
theorem walk_putLoop {V : Type} (cs : List Char) :
    ∀ (c : Char) (cur : Option (TrieNode V)) (acc : TrieNode V) (v : V),
      Option.bind (walkNode (putLoop cur acc (c :: cs) v) (c :: cs)) TrieNode.value
        = some v := by
  induction cs with
  | nil =>
      intro c cur acc v
      cases hc : curChild cur c <;>
        simp [putLoop, hc, walkNode, TrieNode.setChild, alookup_aset_self]
  | cons c2 cs2 ih =>
      intro c cur acc v
      have hstep : ∀ M : TrieNode V,
          walkNode (acc.setChild c M) (c :: c2 :: cs2) = walkNode M (c2 :: cs2) := by
        intro M
        conv_lhs => rw [walkNode]
        simp [TrieNode.setChild, alookup_aset_self]
      cases hc : curChild cur c with
      | some child =>
          rw [show putLoop cur acc (c :: c2 :: cs2) v
                = acc.setChild c (putLoop (some child) child (c2 :: cs2) v) by
              simp [putLoop, hc]]
          rw [hstep]
          exact ih c2 (some child) child v
      | none =>
          rw [show putLoop cur acc (c :: c2 :: cs2) v
                = acc.setChild c (putLoop cur (TrieNode.mk [] none) (c2 :: cs2) v) by
              simp [putLoop, hc]]
          rw [hstep]
          exact ih c2 cur (TrieNode.mk [] none) v

/-- Updating a frame slot and reading it back. -/
theorem getPage_setPage_self (ps : List Page) (f : Nat) (q : Page) :
    getPage (setPage ps f q) f = if f < ps.length then q else initPage := by
  induction ps generalizing f with
  | nil => simp [setPage, getPage]
  | cons p rest ih =>
      cases f with
      | zero => simp [setPage, getPage]
      | succ n => simpa [setPage, getPage, Nat.succ_lt_succ_iff] using ih n

/-- SetEvictable true on a tracked frame leaves its node tracked with
the evictable flag set. -/
theorem setEvictable_true_tracked (r : LRUKReplacer) (f : Nat) (node : LRUKNode)
    (hn : alookup r.node_store f = some node) :
    alookup (setEvictable r f true).node_store f
      = some { node with is_evictable := true } := by
  unfold setEvictable
  rw [hn]
  obtain ⟨nf, nk, nh, ne⟩ := node
  cases ne <;> simp [hn, alookup_aset_self]

end Bustub

namespace Bustub

/-! ## Claim theorems -/

/-- C6: for every snapshot S, key k and value v, Get k on the snapshot
produced by Put k v returns v.  The other half of the claim — Get k on
S itself is unchanged by the Put — holds by construction in the pure
embedding: Put takes S by value and returns a new snapshot, so S is
the same value before and after. -/
theorem trie_put_then_get {V : Type} (t : Trie V) (key : List Char) (v : V) :
    trieGet (triePut t key v) key = .found v := by
  cases key with
  | nil =>
      simp [triePut, trieGet, walkNode, TrieNode.setChild, alookup_aset_self]
  | cons c cs =>
      have h := walk_putLoop cs c t.root (rootOrEmpty t) v
      simp only [triePut, trieGet]
      cases hw : walkNode (putLoop t.root (rootOrEmpty t) (c :: cs) v) (c :: cs) with
      | none => rw [hw] at h; simp at h
      | some n =>
          rw [hw] at h
          simp only [Option.bind] at h
          simp [hw, h]

end Bustub

namespace Bustub

/-- C5: the trie operations can fail.  Get of the empty key on a root
without a null-char child hits the throwing children_.at; Remove on
the empty trie dereferences the null root for every key.  This
evaluates the code on the failing inputs named by the claim. -/
theorem trie_ops_can_fail :
    trieGet (triePut (Trie.mk (none : Option (TrieNode Nat))) [chA] 1) [] = .error ∧
    trieRemove (Trie.mk (none : Option (TrieNode Nat))) [chA] = .error () ∧
    trieRemove (Trie.mk (none : Option (TrieNode Nat))) [] = .error () :=
  ⟨rfl, rfl, rfl⟩

/-- C7: counterexample by evaluation.  On the snapshot S holding only
the key "ab" with value 0, Put of the key "xa" leaves the stale Put
cursor at the old root, so the subtree below the child labelled a of
the root is grafted under the new terminal; after Remove of "xa" the
key "xab" still reads 0, although S itself has no binding for "xab".
The claim demands agreement with S on every key other than "xa". -/
theorem put_remove_disagrees_on_other_key :
    trieGet trieS [chX, chA, chB] = .notFound ∧
    (trieRemove (triePut trieS [chX, chA] 1) [chX, chA]).map
        (fun t => trieGet t [chX, chA, chB]) = .ok (.found 0) :=
  ⟨rfl, rfl⟩

/-- C1: evaluation at the failing input.  Pool of one frame, k 2:
NewPage allocates page 0, UnpinPage leaves it clean and evictable, and
the second NewPage evicts frame 0 from the replacer.  The victim page
is clean, so the code skips the page_table erase: afterwards the table
maps both page 0 and page 1 to frame 0 while the free list is empty,
so the old page id was not removed and frame 0 is mapped by two
entries, violating the free-xor-mapped invariant the claim states. -/
theorem newPage_clean_victim_keeps_stale_mapping :
    (getPage sAfterUnpin.pages 0).is_dirty = false ∧
    (newPage sAfterUnpin).map (fun r => (r.1, r.2.page_table, r.2.free_list))
      = .ok (some 1, [(0, 0), (1, 0)], []) :=
  ⟨rfl, rfl⟩

/-- C8: evaluation at the failing input.  NewPage never touches the
pin count, so the newly returned page 0 has pin count 0 and its frame
was marked non-evictable; DeletePage then passes the pin check and
LRUKReplacer::Remove throws the not-evictable execution exception
instead of returning false.  After UnpinPage the frame is evictable
and DeletePage returns true. -/
theorem newPage_leaves_page_unpinned :
    (getPage sAfterNew.pages 0).pin_count = 0 ∧
    deletePage sAfterNew 0 = .error () ∧
    (deletePage sAfterUnpin 0).map Prod.fst = .ok true :=
  ⟨rfl, rfl, rfl⟩

/-- C4: evaluation at the failing input, two frames with k 2 and the
access sequence 0, 1, 1, 0 (timestamps 1 to 4), both frames evictable.
Frame 0 has K-history timestamps 1 and 4, frame 1 has 2 and 3; the
K-th-most-recent timestamps are 1 for frame 0 and 2 for frame 1, so
the LRU-K rule of the claim would evict frame 0.  The code keeps the
cache list ordered by most recent access and evicts frame 1. -/
theorem evict_picks_recency_not_lruk :
    alookup rC4.node_store 0 = some ⟨0, 2, [1, 4], true⟩ ∧
    alookup rC4.node_store 1 = some ⟨1, 2, [2, 3], true⟩ ∧
    (evict rC4).1 = some 1 :=
  ⟨rfl, rfl, rfl⟩

/-- C2 counterexample: on a fresh pool no page is resident, and
DeletePage of page id 5 returns false, not true as the claim states. -/
theorem deletePage_nonresident_counterexample :
    alookup bpm0.page_table 5 = none ∧
    (deletePage bpm0 5).map Prod.fst ≠ .ok true := by
  refine ⟨rfl, ?_⟩
  have h : (deletePage bpm0 5).map Prod.fst = .ok false := rfl
  rw [h]
  intro hc
  exact Bool.noConfusion (Except.ok.inj hc)

/-- C2 amended: DeletePage of a page id that is not resident returns
false and leaves the buffer pool state unchanged. -/
theorem deletePage_nonresident (s : BufferPoolManager) (pid : Int)
    (h : alookup s.page_table pid = none) :
    deletePage s pid = .ok (false, s) := by
  unfold deletePage
  rw [h]

/-- Witness for deletePage_nonresident at the fresh pool and page 5. -/
theorem deletePage_nonresident_witness :
    alookup bpm0.page_table 5 = none ∧ deletePage bpm0 5 = .ok (false, bpm0) :=
  ⟨rfl, deletePage_nonresident bpm0 5 rfl⟩

/-- C3 counterexample: page 0 is resident with pin count 0 after
NewPage, and FetchPage of page 0 returns frame 0 with the pool state
literally unchanged — the pin count stays 0 instead of being
incremented, no access is recorded and evictability is untouched. -/
theorem fetchPage_hit_counterexample :
    (getPage sAfterNew.pages 0).pin_count = 0 ∧
    fetchPage sAfterNew 0 = .ok (some 0, sAfterNew) ∧
    (fetchPage sAfterNew 0).map (fun r => (getPage r.2.pages 0).pin_count)
      = .ok 0 :=
  ⟨rfl, rfl, rfl⟩

/-- C3 amended: FetchPage of a resident page returns a pointer to its
frame and changes nothing: no access is recorded on the replacer, the
pin count is not incremented and evictability is not changed. -/
theorem fetchPage_resident (s : BufferPoolManager) (pid : Int) (f : Nat)
    (h : alookup s.page_table pid = some f) :
    fetchPage s pid = .ok (some f, s) := by
  unfold fetchPage
  rw [h]

/-- Witness for fetchPage_resident at the pool holding page 0. -/
theorem fetchPage_resident_witness :
    alookup sAfterNew.page_table 0 = some 0 ∧
    fetchPage sAfterNew 0 = .ok (some 0, sAfterNew) :=
  ⟨rfl, fetchPage_resident sAfterNew 0 0 rfl⟩

/-- C10: RecordAccess on a frame that is no longer tracked (possible
only after Remove) and is within bounds re-creates the node: it is
tracked again with exactly the single new timestamp as its history,
it is appended at the recent end of the history list, and it is not
evictable. -/
theorem recordAccess_recreates_node (r : LRUKReplacer) (f : Nat)
    (hf : f < r.replacer_size)
    (hun : alookup r.node_store f = none) :
    recordAccess r f = .ok
      { r with
        current_timestamp := r.current_timestamp + 1
        node_store := aset r.node_store f
          ⟨f, r.k, [r.current_timestamp + 1], false⟩
        history_list := removeFrame r.history_list f ++ [f]
        buffer_list := removeFrame r.buffer_list f } := by
  unfold recordAccess
  rw [if_neg (Nat.not_le.mpr hf), hun]

/-- Witness for recordAccess_recreates_node on the replacer from which
frame 0 was removed. -/
theorem recordAccess_recreates_node_witness :
    0 < rRemoved.replacer_size ∧
    alookup rRemoved.node_store 0 = none ∧
    recordAccess rRemoved 0 = .ok
      { rRemoved with
        current_timestamp := rRemoved.current_timestamp + 1
        node_store := aset rRemoved.node_store 0
          ⟨0, rRemoved.k, [rRemoved.current_timestamp + 1], false⟩
        history_list := removeFrame rRemoved.history_list 0 ++ [0]
        buffer_list := removeFrame rRemoved.buffer_list 0 } :=
  ⟨by decide, rfl, recordAccess_recreates_node rRemoved 0 (by decide) rfl⟩

end Bustub

namespace Bustub

/-- C9: UnpinPage on a resident page whose pin count is already zero
returns true, leaves the pin count at zero (it never goes negative),
and marks the frame evictable in the replacer.  The frame being
tracked by the replacer is an invariant of every reachable pool state
(a frame enters page_table only right after RecordAccess, and Remove
is called only after the page_table entry is erased), stated here as a
hypothesis. -/
theorem unpin_zero_pin_stays_zero (s : BufferPoolManager) (pid : Int) (f : Nat)
    (b : Bool) (node : LRUKNode)
    (hres : alookup s.page_table pid = some f)
    (hpin : (getPage s.pages f).pin_count = 0)
    (hnode : alookup s.replacer.node_store f = some node) :
    (unpinPage s pid b).1 = true ∧
    (getPage (unpinPage s pid b).2.pages f).pin_count = 0 ∧
    alookup (unpinPage s pid b).2.replacer.node_store f
      = some { node with is_evictable := true } := by
  unfold unpinPage
  rw [hres]
  have h1 : (if b && !(getPage s.pages f).is_dirty
      then { getPage s.pages f with is_dirty := true }
      else getPage s.pages f).pin_count = 0 := by
    split <;> simpa using hpin
  simp only []
  rw [if_neg (by rw [h1]; exact lt_irrefl 0), if_pos h1]
  refine ⟨trivial, ?_, setEvictable_true_tracked s.replacer f node hnode⟩
  rw [getPage_setPage_self]
  split
  · exact h1
  · rfl

/-- Witness for unpin_zero_pin_stays_zero at the pool holding page 0
with pin count zero. -/
theorem unpin_zero_pin_stays_zero_witness :
    (unpinPage sAfterNew 0 false).1 = true ∧
    (getPage (unpinPage sAfterNew 0 false).2.pages 0).pin_count = 0 ∧
    alookup (unpinPage sAfterNew 0 false).2.replacer.node_store 0
      = some { fid := 0, k := 2, history := [1], is_evictable := true } :=
  unpin_zero_pin_stays_zero sAfterNew 0 0 false ⟨0, 2, [1], false⟩ rfl rfl rfl

end Bustub
